import Mathlib

/-!
Verification of the fb2mobi bot (src/main.go): a Telegram bot that converts
FB2/TXT books to MOBI via external tools, registers the converted file under a
short random slug in an in-memory map, and serves it over HTTP.

The Go program is shallowly embedded below.  External effects (Telegram API,
wget, ebook-convert, the entropy source, the clock) are resolved by an
explicit environment `Env`; the filesystem is a set of paths; the registry is
an association list with Go-map semantics (insert prepends, lookup takes the
first hit, so the last writer wins).
-/

namespace FB2Mobi

/-! ### String helpers modelled from the Go standard library -/

/-- ASCII lower-casing of one character.  Models the effect of Go
`strings.ToLower` on the characters that matter for the `.fb2`/`.txt`
comparison (Go's Unicode case table agrees with ASCII lowering there). -/
def lowerChar (c : Char) : Char :=
  if 'A' ≤ c ∧ c ≤ 'Z' then Char.ofNat (c.toNat + 32) else c

/-- Models `strings.ToLower` (restricted to ASCII case folding, which is all
the extension comparison in `handleDocument` can observe). -/
def lowerStr (s : String) : String := ⟨s.data.map lowerChar⟩

/-- Decimal digit character, as produced by `fmt.Sprintf("%d", ...)`. -/
def digitChar (d : Nat) : Char :=
  match d with
  | 0 => '0' | 1 => '1' | 2 => '2' | 3 => '3' | 4 => '4'
  | 5 => '5' | 6 => '6' | 7 => '7' | 8 => '8' | _ => '9'

/-- Fuelled decimal digit list of a natural number (most significant first). -/
def natDigitsAux : Nat → Nat → List Char
  | 0, _ => []
  | _ + 1, 0 => []
  | fuel + 1, n + 1 => natDigitsAux fuel ((n + 1) / 10) ++ [digitChar ((n + 1) % 10)]

/-- Models `fmt.Sprintf("%d", n)` for the (nonnegative) Unix timestamp. -/
def natRepr (n : Nat) : String := if n = 0 then "0" else ⟨natDigitsAux n n⟩

/-- Helper for `goExt`: scans the reversed character list; `acc` holds the
characters already passed over, in original order. -/
def goExtAux (acc : List Char) : List Char → List Char
  | [] => []
  | c :: rest =>
    if c = '.' then '.' :: acc
    else if c = '/' then []
    else goExtAux (c :: acc) rest

/-- Models Go `filepath.Ext`: the suffix starting at the final dot in the last
slash-separated element of the path; empty if there is no dot. -/
def goExt (s : String) : String := ⟨goExtAux [] s.data.reverse⟩

/-- Models Go `strings.TrimSuffix`. -/
def trimSuffix (s suffix : String) : String :=
  if suffix.data.isSuffixOf s.data then ⟨s.data.take (s.data.length - suffix.data.length)⟩
  else s

/-- Helper for `goBase`: scans the reversed character list collecting the last
path element. -/
def goBaseAux (acc : List Char) : List Char → List Char
  | [] => acc
  | c :: rest => if c = '/' then acc else goBaseAux (c :: acc) rest

/-- Models Go `filepath.Base` on the paths this program builds (nonempty, no
trailing slash): everything after the last `/`. -/
def goBase (s : String) : String := ⟨goBaseAux [] s.data.reverse⟩

/-- Models `strings.TrimPrefix(path, "/")` as used by the HTTP handler. -/
def stripSlash (p : String) : String :=
  match p.data with
  | '/' :: rest => ⟨rest⟩
  | _ => p

/-- Models the Go byte slice `s[:3]` on a base64 output string (all
characters are ASCII, so byte indices and character indices agree). -/
def take3 (s : String) : String := ⟨s.data.take 3⟩

/-! ### Slug generation (`generateSlug`, src/main.go lines 81-87) -/

/-- The alphabet of `encoding/base64`'s `RawURLEncoding`. -/
def base64urlAlphabet : String :=
  "ABCDEFGHIJKLMNOPQRSTUVWXYZabcdefghijklmnopqrstuvwxyz0123456789-_"

/-- The base64url character for a 6-bit group. -/
def b64Char (d : Nat) : Char := base64urlAlphabet.data.getD (d % 64) 'A'

/-- Models `base64.RawURLEncoding.EncodeToString` on exactly 3 input bytes:
four characters, one per 6-bit group of the 24-bit value. -/
def encodeBase64URL3 (b0 b1 b2 : Nat) : String :=
  let n := (b0 % 256) * 65536 + (b1 % 256) * 256 + (b2 % 256)
  ⟨[b64Char (n / 262144), b64Char (n / 4096), b64Char (n / 64), b64Char n]⟩

/-- Models `generateSlug`: read 3 bytes from `crypto/rand` (the environment
supplies them, or `none` when the entropy source fails), base64url-encode
them and keep the first 3 characters.  On entropy failure the error is
returned and no slug is produced. -/
def generateSlug (entropy : Option (Nat × Nat × Nat)) : Except Unit String :=
  match entropy with
  | none => Except.error ()
  | some (b0, b1, b2) => Except.ok (take3 (encodeBase64URL3 b0 b1 b2))

/-! ### The slug registry (`FileStorage`, src/main.go lines 26-33)

The Go map guarded by the `RWMutex` is modelled as an association list:
`insert` prepends (so a later insert for the same slug shadows the earlier
one, matching map assignment), `lookup` returns the first hit. -/

abbrev Registry := List (String × String)

def Registry.insert (r : Registry) (slug path : String) : Registry :=
  (slug, path) :: r

def Registry.lookup (r : Registry) (slug : String) : Option String :=
  (r.find? fun q => q.1 == slug).map fun q => q.2

/-! ### Filesystem model

The filesystem is the set of existing paths, as a duplicate-free list.
`os.Remove` of a missing file only logs, so removal is a plain filter. -/

abbrev FS := List String

def fsAdd (fs : FS) (p : String) : FS := if p ∈ fs then fs else p :: fs

def fsRemove (fs : FS) (p : String) : FS := fs.filter fun q => q != p

/-- Models `cleanupFiles` (src/main.go lines 233-239): remove each named
file; a failed removal is only logged. -/
def cleanupFiles (fs : FS) (files : List String) : FS := files.foldl fsRemove fs

/-! ### The pipeline (`handleDocument`, src/main.go lines 89-158) -/

/-- The messages the bot sends to the user's chat, in order. -/
inductive Msg where
  /-- The rejection text "Пожалуйста, отправьте файл в формате FB2 или TXT". -/
  | rejection
  /-- The progress text "Начинаю конвертацию файла...". -/
  | progress
  /-- The text sent by `sendErrorMessage`: "Произошла ошибка при обработке файла. ...". -/
  | genericError
  /-- The success text "Конвертация завершена. Скачать файл можно по ссылке:" with the URL. -/
  | successLink (url : String)
  /-- The converted document uploaded via `sendConvertedFile`, named after
  the output file. -/
  | attachment (name : String)
  deriving DecidableEq

/-- Operator-facing log entries produced by the `log.Printf` calls on the
failure paths of `handleDocument` (cleanup-failure logging is not modelled). -/
inductive LogEntry where
  | getFileErr
  | downloadErr
  /-- Logs the error returned by `convertFile`. -/
  | convertErr (msg : String)
  | slugErr
  | sendErr
  deriving DecidableEq

/-- Invocations of the external tools, in order. -/
inductive ToolCall where
  /-- Invocation of `wget -O <dest> <url>` via `downloadFile`. -/
  | downloadCall (dest : String)
  /-- Invocation of `ebook-convert <inp> <outp> --output-profile kindle --mobi-file-type both`. -/
  | convertCall (inp outp : String)
  deriving DecidableEq

/-- The outcome of one `handleDocument` run: final filesystem, final
registry, the user-visible messages, the operator log and the external tool
invocations. -/
structure RunResult where
  fs : FS
  registry : Registry
  messages : List Msg
  log : List LogEntry
  calls : List ToolCall
  deriving DecidableEq

/-- The environment resolving every external effect of one run: whether each
external call succeeds, the diagnostics of the conversion tool, the bytes
offered by the entropy source (`none` = entropy failure), the Unix timestamp
taken at the start of the run, and the configured public host. -/
structure Env where
  getFileOk : Bool
  downloadOk : Bool
  /-- Whether a failed download left a partially written input file. -/
  downloadPartial : Bool
  convertOk : Bool
  /-- Rendering of the non-zero exit error of `ebook-convert` (`%v`). -/
  convertErrDesc : String
  /-- Combined stdout+stderr captured from `ebook-convert`. -/
  convertOutput : String
  /-- Whether a failed conversion left a partially written output file. -/
  convertPartial : Bool
  entropy : Option (Nat × Nat × Nat)
  sendOk : Bool
  timeStamp : Nat
  serverHost : String
  deriving DecidableEq

/-- The inbound document descriptor (the part of the Telegram update the
pipeline reads). -/
structure Doc where
  fileName : String
  deriving DecidableEq

/-- The `uploadDir` constant of src/main.go line 22. -/
def uploadDir : String := "./uploads"

/-- Models `filepath.Join(uploadDir, name)`: `Join` cleans the leading `./`, so for
the names this program builds the result is `uploads/<name>`. -/
def joinUpload (name : String) : String := "uploads/" ++ name

/-- The input path of src/main.go line 111: `<uploadDir>/<ts>_<fileName>`. -/
def inputPathOf (env : Env) (fileName : String) : String :=
  joinUpload (natRepr env.timeStamp ++ "_" ++ fileName)

/-- The output path of src/main.go lines 112-113:
`<uploadDir>/<ts>_<fileName minus its extension>.mobi`. -/
def outputPathOf (env : Env) (fileName : String) : String :=
  joinUpload (natRepr env.timeStamp ++ "_" ++ trimSuffix fileName (goExt fileName) ++ ".mobi")

/-- Models `convertFile` (src/main.go lines 195-207): run `ebook-convert`
capturing combined output; on non-zero exit return
`"ошибка конвертации: <err>, output: <combined output>"`. -/
def convertFile (env : Env) : Except String Unit :=
  if env.convertOk then Except.ok ()
  else Except.error ("ошибка конвертации: " ++ env.convertErrDesc ++ ", output: " ++ env.convertOutput)

/-- Models `handleDocument` (src/main.go lines 89-158) as a function from the
environment, the document and the initial filesystem and registry to the
run's outcome.  Each Go early-return branch is one branch here. -/
def handleDocument (env : Env) (doc : Doc) (fs0 : FS) (reg0 : Registry) : RunResult :=
  let fileExt := lowerStr (goExt doc.fileName)
  if fileExt ≠ ".fb2" ∧ fileExt ≠ ".txt" then
    { fs := fs0, registry := reg0, messages := [Msg.rejection], log := [], calls := [] }
  else if env.getFileOk = false then
    { fs := fs0, registry := reg0, messages := [Msg.progress, Msg.genericError],
      log := [LogEntry.getFileErr], calls := [] }
  else
    let inputPath := inputPathOf env doc.fileName
    let outputPath := outputPathOf env doc.fileName
    if env.downloadOk = false then
      { fs := cleanupFiles (if env.downloadPartial then fsAdd fs0 inputPath else fs0) [inputPath],
        registry := reg0, messages := [Msg.progress, Msg.genericError],
        log := [LogEntry.downloadErr], calls := [ToolCall.downloadCall inputPath] }
    else
      let fs1 := fsAdd fs0 inputPath
      match convertFile env with
      | Except.error e =>
        { fs := cleanupFiles (if env.convertPartial then fsAdd fs1 outputPath else fs1)
            [inputPath, outputPath],
          registry := reg0, messages := [Msg.progress, Msg.genericError],
          log := [LogEntry.convertErr e],
          calls := [ToolCall.downloadCall inputPath, ToolCall.convertCall inputPath outputPath] }
      | Except.ok _ =>
        let fs2 := fsAdd fs1 outputPath
        match generateSlug env.entropy with
        | Except.error _ =>
          { fs := cleanupFiles fs2 [inputPath, outputPath],
            registry := reg0, messages := [Msg.progress, Msg.genericError],
            log := [LogEntry.slugErr],
            calls := [ToolCall.downloadCall inputPath, ToolCall.convertCall inputPath outputPath] }
        | Except.ok slug =>
          let reg1 := reg0.insert slug outputPath
          let url := "http://" ++ env.serverHost ++ "/" ++ slug
          if env.sendOk then
            { fs := cleanupFiles fs2 [inputPath],
              registry := reg1,
              messages := [Msg.progress, Msg.successLink url, Msg.attachment (goBase outputPath)],
              log := [],
              calls := [ToolCall.downloadCall inputPath, ToolCall.convertCall inputPath outputPath] }
          else
            { fs := cleanupFiles fs2 [inputPath],
              registry := reg1,
              messages := [Msg.progress, Msg.successLink url, Msg.genericError],
              log := [LogEntry.sendErr],
              calls := [ToolCall.downloadCall inputPath, ToolCall.convertCall inputPath outputPath] }

/-! ### The retrieval service (`startHTTPServer`, src/main.go lines 160-188) -/

inductive HttpBody where
  | text (s : String)
  /-- Result of `http.ServeFile` streaming the named file's bytes. -/
  | fileContents (path : String)
  deriving DecidableEq

structure HttpResponse where
  status : Nat
  contentType : Option String
  contentDisposition : Option String
  body : HttpBody
  deriving DecidableEq

/-- The response written by `http.Error(w, "Not Found", http.StatusNotFound)`. -/
def notFoundResponse : HttpResponse :=
  { status := 404, contentType := some "text/plain; charset=utf-8",
    contentDisposition := none, body := HttpBody.text "Not Found\n" }

/-- Models the handler registered on `/`: trim the leading slash, reject the
empty slug, look the slug up under `RLock`, and on a hit serve the file with
the attachment disposition and the MOBI content type. -/
def handleHTTP (reg : Registry) (urlPath : String) : HttpResponse :=
  let slug := stripSlash urlPath
  if slug = "" then notFoundResponse
  else
    match reg.lookup slug with
    | none => notFoundResponse
    | some filePath =>
      { status := 200,
        contentType := some "application/x-mobipocket-ebook",
        contentDisposition := some ("attachment; filename=" ++ goBase filePath),
        body := HttpBody.fileContents filePath }

/-- Formalisation of the claim that each submitted document produces exactly
one user-visible outcome and nothing else: the message list is exactly the
rejection, exactly the generic failure, or exactly the success message plus
the attachment. -/
def outcomeExactlyOne (msgs : List Msg) : Prop :=
  msgs = [Msg.rejection] ∨ msgs = [Msg.genericError] ∨
  ∃ u n, msgs = [Msg.successLink u, Msg.attachment n]

/-! ### Registry lemmas -/

theorem Registry.lookup_insert_self (r : Registry) (s p : String) :
    (r.insert s p).lookup s = some p := by
  simp [Registry.insert, Registry.lookup, List.find?_cons]

theorem Registry.lookup_insert_ne (r : Registry) (s s' p : String) (h : s' ≠ s) :
    (r.insert s' p).lookup s = r.lookup s := by
  simp [Registry.insert, Registry.lookup, List.find?_cons, h]

theorem Registry.insert_ne_self (r : Registry) (s p : String) : r.insert s p ≠ r := by
  intro h
  have : (r.insert s p).length = r.length := by rw [h]
  simp [Registry.insert] at this

/-- Folding a batch of inserts prepends the batch in reverse order. -/
theorem foldl_insert_eq (pairs : List (String × String)) (r0 : Registry) :
    pairs.foldl (fun r q => r.insert q.1 q.2) r0 = pairs.reverse ++ r0 := by
  induction pairs generalizing r0 with
  | nil => rfl
  | cons q t ih =>
    simp [List.foldl_cons, ih, Registry.insert]

/-- In an association list whose keys are distinct, lookup of a present
pair's key returns that pair's value, whatever follows. -/
theorem lookup_append_left (l r0 : Registry) (sp : String × String)
    (hmem : sp ∈ l) (hnd : (l.map Prod.fst).Nodup) :
    Registry.lookup (l ++ r0) sp.1 = some sp.2 := by
  induction l with
  | nil => cases hmem
  | cons q t ih =>
    have hnd' : q.1 ∉ t.map Prod.fst ∧ (t.map Prod.fst).Nodup := by simpa using hnd
    cases hbeq : (q.1 == sp.1) with
    | true =>
      have hq : q.1 = sp.1 := eq_of_beq hbeq
      have hsp : sp = q := by
        rcases List.mem_cons.mp hmem with h | h
        · exact h
        · exact absurd (hq ▸ List.mem_map_of_mem Prod.fst h) hnd'.1
      simp [Registry.lookup, List.find?_cons, hbeq, hsp]
    | false =>
      have hne : sp ≠ q := by
        intro h; rw [h] at hbeq; simp at hbeq
      have hmem' : sp ∈ t := by
        rcases List.mem_cons.mp hmem with h | h
        · exact absurd h hne
        · exact h
      have := ih hmem' hnd'.2
      simpa [Registry.lookup, List.find?_cons, hbeq] using this

/-! ### Filesystem lemmas -/

theorem mem_fsAdd {fs : FS} {p q : String} : q ∈ fsAdd fs p ↔ q = p ∨ q ∈ fs := by
  by_cases h : p ∈ fs
  · simp only [fsAdd, if_pos h]
    constructor
    · exact Or.inr
    · rintro (rfl | hq)
      · exact h
      · exact hq
  · simp [fsAdd, if_neg h]

theorem mem_fsRemove {fs : FS} {p q : String} : q ∈ fsRemove fs p ↔ q ∈ fs ∧ q ≠ p := by
  simp [fsRemove, List.mem_filter]

theorem not_mem_fsRemove_self {fs : FS} {p : String} : p ∉ fsRemove fs p := by
  simp [mem_fsRemove]

theorem cleanupFiles_one (fs : FS) (a : String) : cleanupFiles fs [a] = fsRemove fs a := rfl

theorem cleanupFiles_two (fs : FS) (a b : String) :
    cleanupFiles fs [a, b] = fsRemove (fsRemove fs a) b := rfl

/-! ### String-level lemmas -/

theorem string_mk_data (s : String) : String.mk s.data = s := by cases s; rfl

/-- A nonempty result of `goExtAux` is a suffix of the scanned text. -/
theorem goExtAux_suffix : ∀ (rev acc : List Char), goExtAux acc rev ≠ [] →
    ∃ pre, rev.reverse ++ acc = pre ++ goExtAux acc rev := by
  intro rev
  induction rev with
  | nil => intro acc h; exact absurd rfl h
  | cons c rest ih =>
    intro acc h
    by_cases hdot : c = '.'
    · refine ⟨rest.reverse, ?_⟩
      simp [goExtAux, hdot]
    · by_cases hslash : c = '/'
      · exfalso; apply h; simp [goExtAux, hdot, hslash]
      · have h' : goExtAux (c :: acc) rest ≠ [] := by
          intro hnil; apply h; simp [goExtAux, hdot, hslash, hnil]
        obtain ⟨pre, hpre⟩ := ih (c :: acc) h'
        refine ⟨pre, ?_⟩
        have : goExtAux acc (c :: rest) = goExtAux (c :: acc) rest := by
          simp [goExtAux, hdot, hslash]
        rw [this, ← hpre]
        simp

/-- A nonempty extension is a suffix of the file name. -/
theorem goExt_suffix (s : String) (h : goExt s ≠ "") :
    ∃ pre, s.data = pre ++ (goExt s).data := by
  have h' : goExtAux [] s.data.reverse ≠ [] := by
    intro hnil
    apply h
    apply String.ext
    simp [goExt, hnil]
  obtain ⟨pre, hpre⟩ := goExtAux_suffix s.data.reverse [] h'
  refine ⟨pre, ?_⟩
  have : s.data.reverse.reverse ++ ([] : List Char) = s.data := by simp
  rw [this] at hpre
  simpa [goExt] using hpre

/-- Trimming a suffix off a string that ends in it leaves the front part. -/
theorem trimSuffix_of_data_eq (s e : String) (pre : List Char) (h : s.data = pre ++ e.data) :
    (trimSuffix s e).data = pre := by
  have hsuf : e.data.isSuffixOf s.data = true := by
    rw [h, List.isSuffixOf]
    simp [ List.isPrefixOf_iff_prefix]
  simp only [trimSuffix, hsuf, if_pos]
  rw [h]
  have hlen : (pre ++ e.data).length - e.data.length = pre.length := by simp
  rw [hlen, List.take_left]

/-- Character-level decomposition of a file name with a nonempty extension. -/
theorem fileName_decomp (name : String) (h : goExt name ≠ "") :
    name.data = (trimSuffix name (goExt name)).data ++ (goExt name).data := by
  obtain ⟨pre, hpre⟩ := goExt_suffix name h
  rw [trimSuffix_of_data_eq name (goExt name) pre hpre]
  exact hpre

theorem goBaseAux_all (l : List Char) (h : '/' ∉ l) (acc : List Char) :
    goBaseAux acc l = l.reverse ++ acc := by
  induction l generalizing acc with
  | nil => simp [goBaseAux]
  | cons c rest ih =>
    have hc : c ≠ '/' := fun hc => h (hc ▸ List.mem_cons_self c rest)
    have hr : '/' ∉ rest := fun hr => h (List.mem_cons_of_mem c hr)
    simp [goBaseAux, hc, ih hr]

theorem goBaseAux_stop (l : List Char) (h : '/' ∉ l) (acc rest : List Char) :
    goBaseAux acc (l ++ '/' :: rest) = l.reverse ++ acc := by
  induction l generalizing acc with
  | nil => simp [goBaseAux]
  | cons c t ih =>
    have hc : c ≠ '/' := fun hc => h (hc ▸ List.mem_cons_self c t)
    have ht : '/' ∉ t := fun hr => h (List.mem_cons_of_mem c hr)
    simp [goBaseAux, hc, ih ht]

/-- Applying `filepath.Base` to a path placed directly under the upload directory gives
the file name, provided the name itself has no path separator. -/
theorem goBase_joinUpload (name : String) (h : '/' ∉ name.data) :
    goBase (joinUpload name) = name := by
  apply String.ext
  have hdata : (joinUpload name).data = "uploads".data ++ '/' :: name.data := by
    simp [joinUpload, String.data_append]
  have hrev : '/' ∉ name.data.reverse := by simpa using h
  simp only [goBase, hdata]
  rw [show ("uploads".data ++ '/' :: name.data).reverse
      = name.data.reverse ++ '/' :: "uploads".data.reverse by simp]
  rw [goBaseAux_stop name.data.reverse hrev]
  simp

theorem digitChar_ne_slash (d : Nat) : digitChar d ≠ '/' := by
  rcases d with _ | _ | _ | _ | _ | _ | _ | _ | _ | d <;> simp [digitChar]

theorem natDigitsAux_no_slash : ∀ (fuel n : Nat), '/' ∉ natDigitsAux fuel n := by
  intro fuel
  induction fuel with
  | zero => intro n; simp [natDigitsAux]
  | succ f ih =>
    intro n
    cases n with
    | zero => simp [natDigitsAux]
    | succ m =>
      simp only [natDigitsAux, List.mem_append, List.mem_singleton]
      rintro (h | h)
      · exact ih _ h
      · exact digitChar_ne_slash _ h.symm

theorem natRepr_no_slash (n : Nat) : '/' ∉ (natRepr n).data := by
  by_cases h : n = 0
  · simp [natRepr, h]
  · simpa [natRepr, h] using natDigitsAux_no_slash n n

theorem natDigitsAux_ne_nil (fuel n : Nat) (hn : n ≠ 0) (hf : fuel ≠ 0) :
    natDigitsAux fuel n ≠ [] := by
  cases fuel with
  | zero => exact absurd rfl hf
  | succ f =>
    cases n with
    | zero => exact absurd rfl hn
    | succ m => simp [natDigitsAux]

theorem natRepr_ne_empty (n : Nat) : (natRepr n).data ≠ [] := by
  by_cases h : n = 0
  · simp [natRepr, h]
  · simpa [natRepr, h] using natDigitsAux_ne_nil n n h h

theorem lowerStr_length (s : String) : (lowerStr s).length = s.length := by
  show (String.mk (s.data.map lowerChar)).length = s.length
  rw [String.length_mk, List.length_map]
  rfl

/-- An accepted extension is nonempty. -/
theorem goExt_ne_empty_of_valid {name : String}
    (h : lowerStr (goExt name) = ".fb2" ∨ lowerStr (goExt name) = ".txt") :
    goExt name ≠ "" := by
  intro he
  rw [he] at h
  rcases h with h | h <;> exact absurd h (by decide)

/-- An accepted extension is not `.mobi`. -/
theorem goExt_ne_mobi_of_valid {name : String}
    (h : lowerStr (goExt name) = ".fb2" ∨ lowerStr (goExt name) = ".txt") :
    goExt name ≠ ".mobi" := by
  intro he
  rw [he] at h
  rcases h with h | h <;> exact absurd h (by decide)

/-- For an accepted document the namespaced input and output paths differ
(the output swaps the extension for `.mobi`). -/
theorem inputPath_ne_outputPath (env : Env) (name : String)
    (h : lowerStr (goExt name) = ".fb2" ∨ lowerStr (goExt name) = ".txt") :
    inputPathOf env name ≠ outputPathOf env name := by
  intro heq
  have hne : goExt name ≠ "" := goExt_ne_empty_of_valid h
  have hdecomp := fileName_decomp name hne
  have hdata := congrArg String.data heq
  simp only [inputPathOf, outputPathOf, joinUpload, String.data_append, List.append_assoc] at hdata
  have h1 := List.append_cancel_left hdata
  have h2 := List.append_cancel_left h1
  have h3 := List.append_cancel_left h2
  rw [hdecomp] at h3
  have h4 := List.append_cancel_left h3
  have h5 : goExt name = (".mobi" : String) := String.ext h4
  exact goExt_ne_mobi_of_valid h h5

theorem b64Char_mem (d : Nat) : b64Char d ∈ base64urlAlphabet.data := by
  have hlen : base64urlAlphabet.data.length = 64 := by decide
  have h : d % 64 < base64urlAlphabet.data.length := by
    rw [hlen]; exact Nat.mod_lt d (by norm_num)
  rw [b64Char, List.getD_eq_getElem?_getD, List.getElem?_eq_getElem h]
  exact List.getElem_mem h

/-! ### Claims about the slug registry and slug generation -/

/-- C5: after `insert(s, p)`, looking up `s` yields `p`; a later insert with
the same slug overwrites it (last writer wins); a later insert with a
different slug leaves the lookup of `s` unchanged. -/
theorem registry_last_writer_wins (r : Registry) (s s' p q : String) (h : s' ≠ s) :
    (r.insert s p).lookup s = some p ∧
    ((r.insert s p).insert s q).lookup s = some q ∧
    ((r.insert s p).insert s' q).lookup s = some p := by
  refine ⟨Registry.lookup_insert_self r s p, Registry.lookup_insert_self _ s q, ?_⟩
  rw [Registry.lookup_insert_ne _ _ _ _ h, Registry.lookup_insert_self]

theorem registry_last_writer_wins_witness :
    Registry.lookup
      (Registry.insert (Registry.insert [] "aB1" "uploads/1_a.mobi") "xY2" "uploads/2_b.mobi")
      "aB1" = some "uploads/1_a.mobi" :=
  (registry_last_writer_wins [] "aB1" "xY2" "uploads/1_a.mobi" "uploads/2_b.mobi"
    (by decide)).2.2

/-- C9: any serialization of N inserts with pairwise distinct slugs (the
registry's reader/writer lock admits exactly the serialized interleavings)
loses no write: every subsequent lookup of each inserted slug returns its
path. -/
theorem registry_no_lost_writes (pairs : List (String × String)) (r0 : Registry)
    (hnd : (pairs.map Prod.fst).Nodup) :
    ∀ sp ∈ pairs,
      (pairs.foldl (fun r q => r.insert q.1 q.2) r0).lookup sp.1 = some sp.2 := by
  intro sp hsp
  rw [foldl_insert_eq]
  apply lookup_append_left
  · simpa using hsp
  · rw [show pairs.reverse.map Prod.fst = (pairs.map Prod.fst).reverse by simp]
    simpa using hnd

theorem registry_no_lost_writes_witness :
    Registry.lookup
      (List.foldl (fun r q => Registry.insert r q.1 q.2) ([] : Registry)
        [("aB1", "uploads/1_a.mobi"), ("xY2", "uploads/2_b.mobi"),
         ("zZ9", "uploads/3_c.mobi")]) "xY2" = some "uploads/2_b.mobi" :=
  registry_no_lost_writes
    [("aB1", "uploads/1_a.mobi"), ("xY2", "uploads/2_b.mobi"), ("zZ9", "uploads/3_c.mobi")]
    [] (by decide) ("xY2", "uploads/2_b.mobi") (by decide)

/-- C8: `generateSlug` renders the 3 bytes read from the entropy source in
URL-safe base64 truncated to exactly 3 characters and returns that slug; it
fails exactly when the entropy source does, producing no slug. -/
theorem generateSlug_spec :
    (∀ b0 b1 b2 : Nat, ∃ s, generateSlug (some (b0, b1, b2)) = Except.ok s ∧
        s = take3 (encodeBase64URL3 b0 b1 b2) ∧ s.length = 3 ∧
        ∀ c ∈ s.data, c ∈ base64urlAlphabet.data) ∧
    generateSlug none = Except.error () := by
  refine ⟨fun b0 b1 b2 => ⟨take3 (encodeBase64URL3 b0 b1 b2), rfl, rfl, rfl, ?_⟩, rfl⟩
  intro c hc
  have hd : (take3 (encodeBase64URL3 b0 b1 b2)).data =
      [b64Char ((b0 % 256 * 65536 + b1 % 256 * 256 + b2 % 256) / 262144),
       b64Char ((b0 % 256 * 65536 + b1 % 256 * 256 + b2 % 256) / 4096),
       b64Char ((b0 % 256 * 65536 + b1 % 256 * 256 + b2 % 256) / 64)] := rfl
  rw [hd] at hc
  simp only [List.mem_cons, List.not_mem_nil, or_false] at hc
  rcases hc with rfl | rfl | rfl <;> exact b64Char_mem _

/-! ### Claims about the pipeline -/

/-- C4: a document whose lower-cased extension is neither `.fb2` nor `.txt`
is rejected before anything happens: no tool is invoked, the filesystem and
the registry are untouched, and the only message sent is the
validation-rejection message (not the generic failure message). -/
theorem pipeline_rejects_bad_extension (env : Env) (doc : Doc) (fs0 : FS) (reg0 : Registry)
    (hext : lowerStr (goExt doc.fileName) ≠ ".fb2" ∧ lowerStr (goExt doc.fileName) ≠ ".txt") :
    handleDocument env doc fs0 reg0 =
      { fs := fs0, registry := reg0, messages := [Msg.rejection], log := [], calls := [] } := by
  simp only [handleDocument]
  rw [if_pos hext]

theorem pipeline_rejects_bad_extension_witness :
    handleDocument
      { getFileOk := true, downloadOk := true, downloadPartial := false, convertOk := true,
        convertErrDesc := "", convertOutput := "", convertPartial := false,
        entropy := some (0, 0, 0), sendOk := true, timeStamp := 1, serverHost := "h" }
      { fileName := "book.pdf" } [] [] =
      { fs := [], registry := [], messages := [Msg.rejection], log := [], calls := [] } :=
  pipeline_rejects_bad_extension _ _ _ _ (by decide)

/-- Amended C7: every run sends exactly one terminal outcome, but every
non-rejected document is first sent the progress message, and when the
attachment upload fails the generic failure message follows the already-sent
success message. -/
theorem pipeline_message_outcomes (env : Env) (doc : Doc) (fs0 : FS) (reg0 : Registry) :
    (handleDocument env doc fs0 reg0).messages = [Msg.rejection] ∨
    (handleDocument env doc fs0 reg0).messages = [Msg.progress, Msg.genericError] ∨
    (∃ u n, (handleDocument env doc fs0 reg0).messages =
      [Msg.progress, Msg.successLink u, Msg.attachment n]) ∨
    (∃ u, (handleDocument env doc fs0 reg0).messages =
      [Msg.progress, Msg.successLink u, Msg.genericError]) := by
  simp only [handleDocument]
  split
  · exact Or.inl rfl
  · split
    · exact Or.inr (Or.inl rfl)
    · split
      · exact Or.inr (Or.inl rfl)
      · split
        · exact Or.inr (Or.inl rfl)
        · split
          · exact Or.inr (Or.inl rfl)
          · split
            · exact Or.inr (Or.inr (Or.inl ⟨_, _, rfl⟩))
            · exact Or.inr (Or.inr (Or.inr ⟨_, rfl⟩))

/-- C7 as stated is false: on a fully successful run the user receives the
progress message in addition to the success message and the attachment, so
the message list is not exactly one of the three claimed outcomes. -/
theorem pipeline_not_exactly_one_outcome :
    ¬ outcomeExactlyOne
      ((handleDocument
        { getFileOk := true, downloadOk := true, downloadPartial := false, convertOk := true,
          convertErrDesc := "", convertOutput := "", convertPartial := false,
          entropy := some (0, 0, 0), sendOk := true, timeStamp := 1, serverHost := "h" }
        { fileName := "book.fb2" } [] []).messages) := by
  intro h
  have hmsgs : (handleDocument
      { getFileOk := true, downloadOk := true, downloadPartial := false, convertOk := true,
        convertErrDesc := "", convertOutput := "", convertPartial := false,
        entropy := some (0, 0, 0), sendOk := true, timeStamp := 1, serverHost := "h" }
      { fileName := "book.fb2" } [] []).messages =
      [Msg.progress, Msg.successLink "http://h/AAA", Msg.attachment "1_book.mobi"] := by decide
  rw [hmsgs] at h
  rcases h with h | h | ⟨u, n, h⟩ <;> simp at h

/-- The accepted-extension hypothesis, as the negation of the rejection
condition in `handleDocument`. -/
theorem not_reject_of_valid {name : String}
    (h : lowerStr (goExt name) = ".fb2" ∨ lowerStr (goExt name) = ".txt") :
    ¬(lowerStr (goExt name) ≠ ".fb2" ∧ lowerStr (goExt name) ≠ ".txt") := by
  rcases h with h | h <;> simp [h]

/-! Characterizations of the remaining terminal branches of `handleDocument`,
shared by the pipeline claims below. -/

theorem handleDocument_getFileFail (env : Env) (doc : Doc) (fs0 : FS) (reg0 : Registry)
    (hext : lowerStr (goExt doc.fileName) = ".fb2" ∨ lowerStr (goExt doc.fileName) = ".txt")
    (hgf : env.getFileOk = false) :
    handleDocument env doc fs0 reg0 =
      { fs := fs0, registry := reg0, messages := [Msg.progress, Msg.genericError],
        log := [LogEntry.getFileErr], calls := [] } := by
  simp only [handleDocument, if_neg (not_reject_of_valid hext), hgf]
  simp

theorem handleDocument_downloadFail (env : Env) (doc : Doc) (fs0 : FS) (reg0 : Registry)
    (hext : lowerStr (goExt doc.fileName) = ".fb2" ∨ lowerStr (goExt doc.fileName) = ".txt")
    (hgf : env.getFileOk = true) (hdl : env.downloadOk = false) :
    handleDocument env doc fs0 reg0 =
      { fs := cleanupFiles
          (if env.downloadPartial then fsAdd fs0 (inputPathOf env doc.fileName) else fs0)
          [inputPathOf env doc.fileName],
        registry := reg0, messages := [Msg.progress, Msg.genericError],
        log := [LogEntry.downloadErr],
        calls := [ToolCall.downloadCall (inputPathOf env doc.fileName)] } := by
  simp only [handleDocument, if_neg (not_reject_of_valid hext), hgf, hdl]
  simp

theorem handleDocument_convertFail (env : Env) (doc : Doc) (fs0 : FS) (reg0 : Registry)
    (hext : lowerStr (goExt doc.fileName) = ".fb2" ∨ lowerStr (goExt doc.fileName) = ".txt")
    (hgf : env.getFileOk = true) (hdl : env.downloadOk = true) (hcv : env.convertOk = false) :
    handleDocument env doc fs0 reg0 =
      { fs := cleanupFiles
          (if env.convertPartial then
            fsAdd (fsAdd fs0 (inputPathOf env doc.fileName)) (outputPathOf env doc.fileName)
          else fsAdd fs0 (inputPathOf env doc.fileName))
          [inputPathOf env doc.fileName, outputPathOf env doc.fileName],
        registry := reg0, messages := [Msg.progress, Msg.genericError],
        log := [LogEntry.convertErr ("ошибка конвертации: " ++ env.convertErrDesc
          ++ ", output: " ++ env.convertOutput)],
        calls := [ToolCall.downloadCall (inputPathOf env doc.fileName),
          ToolCall.convertCall (inputPathOf env doc.fileName)
            (outputPathOf env doc.fileName)] } := by
  have hcf : convertFile env =
      Except.error ("ошибка конвертации: " ++ env.convertErrDesc ++ ", output: "
        ++ env.convertOutput) := by
    simp [convertFile, hcv]
  simp only [handleDocument, if_neg (not_reject_of_valid hext), hgf, hdl, hcf]
  simp

theorem handleDocument_slugFail (env : Env) (doc : Doc) (fs0 : FS) (reg0 : Registry)
    (hext : lowerStr (goExt doc.fileName) = ".fb2" ∨ lowerStr (goExt doc.fileName) = ".txt")
    (hgf : env.getFileOk = true) (hdl : env.downloadOk = true) (hcv : env.convertOk = true)
    (hent : env.entropy = none) :
    handleDocument env doc fs0 reg0 =
      { fs := cleanupFiles (fsAdd (fsAdd fs0 (inputPathOf env doc.fileName))
          (outputPathOf env doc.fileName))
          [inputPathOf env doc.fileName, outputPathOf env doc.fileName],
        registry := reg0, messages := [Msg.progress, Msg.genericError],
        log := [LogEntry.slugErr],
        calls := [ToolCall.downloadCall (inputPathOf env doc.fileName),
          ToolCall.convertCall (inputPathOf env doc.fileName)
            (outputPathOf env doc.fileName)] } := by
  have hcf : convertFile env = Except.ok () := by simp [convertFile, hcv]
  simp only [handleDocument, if_neg (not_reject_of_valid hext), hgf, hdl, hcf, hent,
    generateSlug]
  simp

theorem handleDocument_success (env : Env) (doc : Doc) (fs0 : FS) (reg0 : Registry)
    (hext : lowerStr (goExt doc.fileName) = ".fb2" ∨ lowerStr (goExt doc.fileName) = ".txt")
    (hgf : env.getFileOk = true) (hdl : env.downloadOk = true) (hcv : env.convertOk = true)
    (b0 b1 b2 : Nat) (hent : env.entropy = some (b0, b1, b2)) :
    handleDocument env doc fs0 reg0 =
      { fs := cleanupFiles (fsAdd (fsAdd fs0 (inputPathOf env doc.fileName))
          (outputPathOf env doc.fileName)) [inputPathOf env doc.fileName],
        registry := Registry.insert reg0 (take3 (encodeBase64URL3 b0 b1 b2))
          (outputPathOf env doc.fileName),
        messages := [Msg.progress,
          Msg.successLink ("http://" ++ env.serverHost ++ "/"
            ++ take3 (encodeBase64URL3 b0 b1 b2)),
          if env.sendOk then Msg.attachment (goBase (outputPathOf env doc.fileName))
          else Msg.genericError],
        log := if env.sendOk then [] else [LogEntry.sendErr],
        calls := [ToolCall.downloadCall (inputPathOf env doc.fileName),
          ToolCall.convertCall (inputPathOf env doc.fileName)
            (outputPathOf env doc.fileName)] } := by
  have hcf : convertFile env = Except.ok () := by simp [convertFile, hcv]
  simp only [handleDocument, if_neg (not_reject_of_valid hext), hgf, hdl, hcf, hent,
    generateSlug]
  cases hs : env.sendOk <;> simp [hs]

/-- C3: when `ebook-convert` exits non-zero, the registry is untouched, both
the input and the output path are absent afterwards, and the error handed to
the failure handler carries the tool's combined stdout+stderr. -/
theorem pipeline_convert_failure (env : Env) (doc : Doc) (fs0 : FS) (reg0 : Registry)
    (hext : lowerStr (goExt doc.fileName) = ".fb2" ∨ lowerStr (goExt doc.fileName) = ".txt")
    (hgf : env.getFileOk = true) (hdl : env.downloadOk = true) (hcv : env.convertOk = false) :
    (handleDocument env doc fs0 reg0).registry = reg0 ∧
    inputPathOf env doc.fileName ∉ (handleDocument env doc fs0 reg0).fs ∧
    outputPathOf env doc.fileName ∉ (handleDocument env doc fs0 reg0).fs ∧
    ∃ e, (handleDocument env doc fs0 reg0).log = [LogEntry.convertErr e] ∧
      ∃ pre, e = pre ++ env.convertOutput := by
  rw [handleDocument_convertFail env doc fs0 reg0 hext hgf hdl hcv]
  refine ⟨rfl, ?_, ?_, ?_⟩
  · rw [cleanupFiles_two]
    intro h
    exact absurd ((mem_fsRemove.mp ((mem_fsRemove.mp h).1)).2) (by simp)
  · rw [cleanupFiles_two]
    exact not_mem_fsRemove_self
  · exact ⟨_, rfl, "ошибка конвертации: " ++ env.convertErrDesc ++ ", output: ",
      by rw [String.append_assoc]⟩

theorem pipeline_convert_failure_witness :
    (handleDocument
      { getFileOk := true, downloadOk := true, downloadPartial := false, convertOk := false,
        convertErrDesc := "exit status 1", convertOutput := "some diagnostics",
        convertPartial := true, entropy := some (0, 0, 0), sendOk := true,
        timeStamp := 1, serverHost := "h" }
      { fileName := "book.fb2" } [] []).registry = [] ∧
    "uploads/1_book.fb2" ∉ (handleDocument
      { getFileOk := true, downloadOk := true, downloadPartial := false, convertOk := false,
        convertErrDesc := "exit status 1", convertOutput := "some diagnostics",
        convertPartial := true, entropy := some (0, 0, 0), sendOk := true,
        timeStamp := 1, serverHost := "h" }
      { fileName := "book.fb2" } [] []).fs := by
  have h := pipeline_convert_failure
    { getFileOk := true, downloadOk := true, downloadPartial := false, convertOk := false,
      convertErrDesc := "exit status 1", convertOutput := "some diagnostics",
      convertPartial := true, entropy := some (0, 0, 0), sendOk := true,
      timeStamp := 1, serverHost := "h" }
    { fileName := "book.fb2" } [] [] (by decide) rfl rfl rfl
  exact ⟨h.1, by simpa using h.2.1⟩

theorem handleDocument_reject (env : Env) (doc : Doc) (fs0 : FS) (reg0 : Registry)
    (hval : lowerStr (goExt doc.fileName) ≠ ".fb2" ∧ lowerStr (goExt doc.fileName) ≠ ".txt") :
    handleDocument env doc fs0 reg0 =
      { fs := fs0, registry := reg0, messages := [Msg.rejection], log := [], calls := [] } := by
  simp only [handleDocument]
  rw [if_pos hval]

/-- C2: on a fully successful run the input path is gone, the output path
still exists, and the generated slug looks up to exactly the output path. -/
theorem pipeline_full_success (env : Env) (doc : Doc) (fs0 : FS) (reg0 : Registry)
    (hext : lowerStr (goExt doc.fileName) = ".fb2" ∨ lowerStr (goExt doc.fileName) = ".txt")
    (hgf : env.getFileOk = true) (hdl : env.downloadOk = true) (hcv : env.convertOk = true)
    (b0 b1 b2 : Nat) (hent : env.entropy = some (b0, b1, b2)) :
    ∃ slug, generateSlug env.entropy = Except.ok slug ∧
      inputPathOf env doc.fileName ∉ (handleDocument env doc fs0 reg0).fs ∧
      outputPathOf env doc.fileName ∈ (handleDocument env doc fs0 reg0).fs ∧
      Registry.lookup (handleDocument env doc fs0 reg0).registry slug =
        some (outputPathOf env doc.fileName) := by
  rw [handleDocument_success env doc fs0 reg0 hext hgf hdl hcv b0 b1 b2 hent, hent]
  refine ⟨take3 (encodeBase64URL3 b0 b1 b2), rfl, ?_, ?_, ?_⟩
  · simp only [cleanupFiles_one]
    exact not_mem_fsRemove_self
  · simp only [cleanupFiles_one]
    exact mem_fsRemove.mpr ⟨mem_fsAdd.mpr (Or.inl rfl),
      Ne.symm (inputPath_ne_outputPath env doc.fileName hext)⟩
  · exact Registry.lookup_insert_self reg0 _ _

theorem pipeline_full_success_witness :
    ∃ slug, generateSlug (some (0, 0, 0)) = Except.ok slug ∧
      inputPathOf
        { getFileOk := true, downloadOk := true, downloadPartial := false, convertOk := true,
          convertErrDesc := "", convertOutput := "", convertPartial := false,
          entropy := some (0, 0, 0), sendOk := true, timeStamp := 1, serverHost := "h" }
        "book.fb2" ∉
        (handleDocument
          { getFileOk := true, downloadOk := true, downloadPartial := false, convertOk := true,
            convertErrDesc := "", convertOutput := "", convertPartial := false,
            entropy := some (0, 0, 0), sendOk := true, timeStamp := 1, serverHost := "h" }
          { fileName := "book.fb2" } [] []).fs ∧
      outputPathOf
        { getFileOk := true, downloadOk := true, downloadPartial := false, convertOk := true,
          convertErrDesc := "", convertOutput := "", convertPartial := false,
          entropy := some (0, 0, 0), sendOk := true, timeStamp := 1, serverHost := "h" }
        "book.fb2" ∈
        (handleDocument
          { getFileOk := true, downloadOk := true, downloadPartial := false, convertOk := true,
            convertErrDesc := "", convertOutput := "", convertPartial := false,
            entropy := some (0, 0, 0), sendOk := true, timeStamp := 1, serverHost := "h" }
          { fileName := "book.fb2" } [] []).fs ∧
      Registry.lookup
        (handleDocument
          { getFileOk := true, downloadOk := true, downloadPartial := false, convertOk := true,
            convertErrDesc := "", convertOutput := "", convertPartial := false,
            entropy := some (0, 0, 0), sendOk := true, timeStamp := 1, serverHost := "h" }
          { fileName := "book.fb2" } [] []).registry slug =
        some (outputPathOf
          { getFileOk := true, downloadOk := true, downloadPartial := false, convertOk := true,
            convertErrDesc := "", convertOutput := "", convertPartial := false,
            entropy := some (0, 0, 0), sendOk := true, timeStamp := 1, serverHost := "h" }
          "book.fb2") :=
  pipeline_full_success
    { getFileOk := true, downloadOk := true, downloadPartial := false, convertOk := true,
      convertErrDesc := "", convertOutput := "", convertPartial := false,
      entropy := some (0, 0, 0), sendOk := true, timeStamp := 1, serverHost := "h" }
    { fileName := "book.fb2" } [] [] (by decide) rfl rfl rfl 0 0 0 rfl

/-- C1: the registry is modified only on conversion success, and then it
gains exactly one entry mapping a slug to the output path, which is still on
disk at the end of the run; in every terminal state the input artifact is
absent. -/
theorem pipeline_insert_only_after_convert (env : Env) (doc : Doc) (fs0 : FS) (reg0 : Registry)
    (hin : inputPathOf env doc.fileName ∉ fs0) :
    ((handleDocument env doc fs0 reg0).registry = reg0 ∨
      (env.convertOk = true ∧ ∃ slug,
        (handleDocument env doc fs0 reg0).registry =
          Registry.insert reg0 slug (outputPathOf env doc.fileName) ∧
        outputPathOf env doc.fileName ∈ (handleDocument env doc fs0 reg0).fs)) ∧
    inputPathOf env doc.fileName ∉ (handleDocument env doc fs0 reg0).fs := by
  by_cases hval : lowerStr (goExt doc.fileName) ≠ ".fb2" ∧ lowerStr (goExt doc.fileName) ≠ ".txt"
  · rw [handleDocument_reject env doc fs0 reg0 hval]
    exact ⟨Or.inl rfl, hin⟩
  · have hext : lowerStr (goExt doc.fileName) = ".fb2" ∨ lowerStr (goExt doc.fileName) = ".txt" := by
      rcases not_and_or.mp hval with h | h
      · exact Or.inl (not_not.mp h)
      · exact Or.inr (not_not.mp h)
    cases hgf : env.getFileOk with
    | false =>
      rw [handleDocument_getFileFail env doc fs0 reg0 hext hgf]
      exact ⟨Or.inl rfl, hin⟩
    | true =>
      cases hdl : env.downloadOk with
      | false =>
        rw [handleDocument_downloadFail env doc fs0 reg0 hext hgf hdl]
        refine ⟨Or.inl rfl, ?_⟩
        simp only [cleanupFiles_one]
        exact not_mem_fsRemove_self
      | true =>
        cases hcv : env.convertOk with
        | false =>
          rw [handleDocument_convertFail env doc fs0 reg0 hext hgf hdl hcv]
          refine ⟨Or.inl rfl, ?_⟩
          simp only [cleanupFiles_two]
          intro h
          exact absurd ((mem_fsRemove.mp ((mem_fsRemove.mp h).1)).2) (by simp)
        | true =>
          cases hent : env.entropy with
          | none =>
            rw [handleDocument_slugFail env doc fs0 reg0 hext hgf hdl hcv hent]
            refine ⟨Or.inl rfl, ?_⟩
            simp only [cleanupFiles_two]
            intro h
            exact absurd ((mem_fsRemove.mp ((mem_fsRemove.mp h).1)).2) (by simp)
          | some b =>
            obtain ⟨b0, b1, b2⟩ := b
            rw [handleDocument_success env doc fs0 reg0 hext hgf hdl hcv b0 b1 b2 hent]
            refine ⟨Or.inr ⟨rfl, take3 (encodeBase64URL3 b0 b1 b2), rfl, ?_⟩, ?_⟩
            · simp only [cleanupFiles_one]
              exact mem_fsRemove.mpr ⟨mem_fsAdd.mpr (Or.inl rfl),
                Ne.symm (inputPath_ne_outputPath env doc.fileName hext)⟩
            · simp only [cleanupFiles_one]
              exact not_mem_fsRemove_self

theorem pipeline_insert_only_after_convert_witness :
    (((handleDocument
        { getFileOk := true, downloadOk := true, downloadPartial := false, convertOk := true,
          convertErrDesc := "", convertOutput := "", convertPartial := false,
          entropy := some (0, 0, 0), sendOk := true, timeStamp := 1, serverHost := "h" }
        { fileName := "book.fb2" } [] []).registry = [] ∨
      (({ getFileOk := true, downloadOk := true, downloadPartial := false, convertOk := true,
          convertErrDesc := "", convertOutput := "", convertPartial := false,
          entropy := some (0, 0, 0), sendOk := true, timeStamp := 1,
          serverHost := "h" } : Env).convertOk = true ∧ ∃ slug,
        (handleDocument
          { getFileOk := true, downloadOk := true, downloadPartial := false, convertOk := true,
            convertErrDesc := "", convertOutput := "", convertPartial := false,
            entropy := some (0, 0, 0), sendOk := true, timeStamp := 1, serverHost := "h" }
          { fileName := "book.fb2" } [] []).registry =
          Registry.insert [] slug
            (outputPathOf
              { getFileOk := true, downloadOk := true, downloadPartial := false,
                convertOk := true, convertErrDesc := "", convertOutput := "",
                convertPartial := false, entropy := some (0, 0, 0), sendOk := true,
                timeStamp := 1, serverHost := "h" } "book.fb2") ∧
        outputPathOf
          { getFileOk := true, downloadOk := true, downloadPartial := false, convertOk := true,
            convertErrDesc := "", convertOutput := "", convertPartial := false,
            entropy := some (0, 0, 0), sendOk := true, timeStamp := 1, serverHost := "h" }
          "book.fb2" ∈
          (handleDocument
            { getFileOk := true, downloadOk := true, downloadPartial := false,
              convertOk := true, convertErrDesc := "", convertOutput := "",
              convertPartial := false, entropy := some (0, 0, 0), sendOk := true,
              timeStamp := 1, serverHost := "h" }
            { fileName := "book.fb2" } [] []).fs)) ∧
      inputPathOf
        { getFileOk := true, downloadOk := true, downloadPartial := false, convertOk := true,
          convertErrDesc := "", convertOutput := "", convertPartial := false,
          entropy := some (0, 0, 0), sendOk := true, timeStamp := 1, serverHost := "h" }
        "book.fb2" ∉
        (handleDocument
          { getFileOk := true, downloadOk := true, downloadPartial := false, convertOk := true,
            convertErrDesc := "", convertOutput := "", convertPartial := false,
            entropy := some (0, 0, 0), sendOk := true, timeStamp := 1, serverHost := "h" }
          { fileName := "book.fb2" } [] []).fs) :=
  pipeline_insert_only_after_convert
    { getFileOk := true, downloadOk := true, downloadPartial := false, convertOk := true,
      convertErrDesc := "", convertOutput := "", convertPartial := false,
      entropy := some (0, 0, 0), sendOk := true, timeStamp := 1, serverHost := "h" }
    { fileName := "book.fb2" } [] [] (by simp)

theorem generateSlug_spec_witness : generateSlug (some (1, 2, 3)) = Except.ok "AQI" := by
  obtain ⟨s, hok, hs, -, -⟩ := generateSlug_spec.1 1 2 3
  have h : s = "AQI" := by rw [hs]; decide
  rw [← h]
  exact hok

/-! ### Claims about the retrieval service -/

/-- C6: the not-found response is a 404 with a plain-text body, returned both
for the empty path segment and for any unregistered slug; a registered slug
is served with the attachment disposition naming the file and the MOBI
content type, streaming the file's bytes. -/
theorem http_contract (reg : Registry) (urlPath : String) :
    (notFoundResponse.status = 404 ∧
      notFoundResponse.contentType = some "text/plain; charset=utf-8" ∧
      notFoundResponse.body = HttpBody.text "Not Found\n") ∧
    (stripSlash urlPath = "" → handleHTTP reg urlPath = notFoundResponse) ∧
    (Registry.lookup reg (stripSlash urlPath) = none →
      handleHTTP reg urlPath = notFoundResponse) ∧
    (∀ p, stripSlash urlPath ≠ "" → Registry.lookup reg (stripSlash urlPath) = some p →
      handleHTTP reg urlPath =
        { status := 200, contentType := some "application/x-mobipocket-ebook",
          contentDisposition := some ("attachment; filename=" ++ goBase p),
          body := HttpBody.fileContents p }) := by
  refine ⟨⟨rfl, rfl, rfl⟩, ?_, ?_, ?_⟩
  · intro h
    simp [handleHTTP, h]
  · intro h
    by_cases he : stripSlash urlPath = ""
    · simp [handleHTTP, he]
    · simp [handleHTTP, he, h]
  · intro p hne hp
    simp [handleHTTP, hne, hp]

theorem http_contract_witness :
    handleHTTP [("aB1", "uploads/1_book.mobi")] "/aB1" =
      { status := 200, contentType := some "application/x-mobipocket-ebook",
        contentDisposition := some "attachment; filename=1_book.mobi",
        body := HttpBody.fileContents "uploads/1_book.mobi" } := by
  have h := (http_contract [("aB1", "uploads/1_book.mobi")] "/aB1").2.2.2
    "uploads/1_book.mobi" (by decide) (by decide)
  rw [h]
  decide

theorem stripSlash_slash_append (s : String) : stripSlash ("/" ++ s) = s := by
  have h : ("/" ++ s) = String.mk ('/' :: s.data) := by
    apply String.ext
    simp [String.data_append]
  rw [h]
  rfl

theorem take3_encode_data (b0 b1 b2 : Nat) :
    (take3 (encodeBase64URL3 b0 b1 b2)).data =
      [b64Char ((b0 % 256 * 65536 + b1 % 256 * 256 + b2 % 256) / 262144),
       b64Char ((b0 % 256 * 65536 + b1 % 256 * 256 + b2 % 256) / 4096),
       b64Char ((b0 % 256 * 65536 + b1 % 256 * 256 + b2 % 256) / 64)] := rfl

theorem take3_encode_ne_empty (b0 b1 b2 : Nat) : take3 (encodeBase64URL3 b0 b1 b2) ≠ "" := by
  intro h
  have := congrArg String.data h
  rw [take3_encode_data] at this
  simp at this

theorem trimSuffix_no_slash {name : String} (hval : goExt name ≠ "")
    (h : '/' ∉ name.data) : '/' ∉ (trimSuffix name (goExt name)).data := by
  obtain ⟨pre, hpre⟩ := goExt_suffix name hval
  rw [trimSuffix_of_data_eq name _ pre hpre]
  intro hm
  exact h (hpre ▸ List.mem_append_left _ hm)

/-- The name the output file is stored under contains no path separator when
the original file name does not. -/
theorem outputName_no_slash (env : Env) (name : String)
    (hext : lowerStr (goExt name) = ".fb2" ∨ lowerStr (goExt name) = ".txt")
    (hslash : '/' ∉ name.data) :
    '/' ∉ (natRepr env.timeStamp ++ "_" ++ trimSuffix name (goExt name) ++ ".mobi").data := by
  have hne : goExt name ≠ "" := goExt_ne_empty_of_valid hext
  simp only [String.data_append, List.mem_append]
  rintro (((h | h) | h) | h)
  · exact natRepr_no_slash env.timeStamp h
  · revert h; decide
  · exact trimSuffix_no_slash hne hslash h
  · revert h; decide

theorem goBase_outputPath (env : Env) (name : String)
    (hext : lowerStr (goExt name) = ".fb2" ∨ lowerStr (goExt name) = ".txt")
    (hslash : '/' ∉ name.data) :
    goBase (outputPathOf env name) =
      natRepr env.timeStamp ++ "_" ++ trimSuffix name (goExt name) ++ ".mobi" := by
  exact goBase_joinUpload _ (outputName_no_slash env name hext hslash)

/-- The stored output name is never the user's original file name (it gains
the timestamp prefix and the `.mobi` suffix, while a valid original name
ends in a 4-character extension). -/
theorem outputName_ne_fileName (env : Env) (name : String)
    (hext : lowerStr (goExt name) = ".fb2" ∨ lowerStr (goExt name) = ".txt") :
    natRepr env.timeStamp ++ "_" ++ trimSuffix name (goExt name) ++ ".mobi" ≠ name := by
  intro h
  have hne : goExt name ≠ "" := goExt_ne_empty_of_valid hext
  have hdecomp := fileName_decomp name hne
  have hext4 : (goExt name).length = 4 := by
    have hl := lowerStr_length (goExt name)
    rcases hext with h' | h' <;> rw [h'] at hl <;> exact hl.symm
  have hlen := congrArg String.length h
  have hname : name.length = (trimSuffix name (goExt name)).length + 4 := by
    show name.data.length = (trimSuffix name (goExt name)).data.length + 4
    rw [hdecomp, List.length_append]
    have h4 : (goExt name).data.length = 4 := hext4
    omega
  rw [String.length_append, String.length_append, String.length_append, hname] at hlen
  have h1 : ("_" : String).length = 1 := rfl
  have h5 : (".mobi" : String).length = 5 := rfl
  rw [h1, h5] at hlen
  omega

/-- C10: on a fully successful run, retrieving the slug yields a
Content-Disposition whose file name is the basename of the stored output
path — `<timestamp>_<original name without extension>.mobi` — and not the
user's original file name. -/
theorem retrieval_filename_is_output_basename (env : Env) (doc : Doc) (fs0 : FS)
    (reg0 : Registry)
    (hext : lowerStr (goExt doc.fileName) = ".fb2" ∨ lowerStr (goExt doc.fileName) = ".txt")
    (hgf : env.getFileOk = true) (hdl : env.downloadOk = true) (hcv : env.convertOk = true)
    (b0 b1 b2 : Nat) (hent : env.entropy = some (b0, b1, b2))
    (hslash : '/' ∉ doc.fileName.data) :
    ∃ slug, generateSlug env.entropy = Except.ok slug ∧
      (handleHTTP (handleDocument env doc fs0 reg0).registry ("/" ++ slug)).contentDisposition =
        some ("attachment; filename=" ++
          (natRepr env.timeStamp ++ "_" ++ trimSuffix doc.fileName (goExt doc.fileName)
            ++ ".mobi")) ∧
      natRepr env.timeStamp ++ "_" ++ trimSuffix doc.fileName (goExt doc.fileName) ++ ".mobi"
        ≠ doc.fileName := by
  rw [handleDocument_success env doc fs0 reg0 hext hgf hdl hcv b0 b1 b2 hent, hent]
  refine ⟨take3 (encodeBase64URL3 b0 b1 b2), rfl, ?_,
    outputName_ne_fileName env doc.fileName hext⟩
  simp only [handleHTTP, stripSlash_slash_append]
  rw [if_neg (take3_encode_ne_empty b0 b1 b2)]
  rw [show Registry.lookup
      (Registry.insert reg0 (take3 (encodeBase64URL3 b0 b1 b2)) (outputPathOf env doc.fileName))
      (take3 (encodeBase64URL3 b0 b1 b2)) = some (outputPathOf env doc.fileName) from
    Registry.lookup_insert_self reg0 _ _]
  simp only [goBase_outputPath env doc.fileName hext hslash]

theorem retrieval_filename_is_output_basename_witness :
    ∃ slug, generateSlug (some (0, 0, 0)) = Except.ok slug ∧
      (handleHTTP
        (handleDocument
          { getFileOk := true, downloadOk := true, downloadPartial := false, convertOk := true,
            convertErrDesc := "", convertOutput := "", convertPartial := false,
            entropy := some (0, 0, 0), sendOk := true, timeStamp := 1, serverHost := "h" }
          { fileName := "book.fb2" } [] []).registry ("/" ++ slug)).contentDisposition =
        some ("attachment; filename=" ++
          (natRepr 1 ++ "_" ++ trimSuffix "book.fb2" (goExt "book.fb2") ++ ".mobi")) ∧
      natRepr 1 ++ "_" ++ trimSuffix "book.fb2" (goExt "book.fb2") ++ ".mobi" ≠ "book.fb2" :=
  retrieval_filename_is_output_basename
    { getFileOk := true, downloadOk := true, downloadPartial := false, convertOk := true,
      convertErrDesc := "", convertOutput := "", convertPartial := false,
      entropy := some (0, 0, 0), sendOk := true, timeStamp := 1, serverHost := "h" }
    { fileName := "book.fb2" } [] [] (by decide) rfl rfl rfl 0 0 0 rfl (by decide)

end FB2Mobi
